import Mathlib

/-!
Verification development for the panopticon progress tracker.

The definitions below are shallow embeddings of the TypeScript source:
`src/progress/types.ts`, `src/progress/manager.ts`, `src/progress/storage.ts`,
`src/progress/events/file_store.ts`, `src/progress/events/memory_store.ts`,
`src/progress/events/definitions.ts` and `src/core/events.ts`.
JavaScript numbers are modelled as rationals, timestamps as their epoch
millisecond values, and optional fields as `Option`.
-/

namespace Panopticon

/-- Status enum shared across projects, milestones and tasks
(`progress/types.ts`, `enum Status`). -/
inductive Status where
  | notStarted
  | inProgress
  | completed
  | blocked
deriving DecidableEq, Repr

/-- Task priority (`progress/types.ts`, `enum TaskPriority`). -/
inductive TaskPriority where
  | must
  | enhance
deriving DecidableEq, Repr

/-- Task record (`progress/types.ts`, `interface Task`).  Points are
JS numbers, modelled as rationals; `startTime`/`endTime` are ISO strings in
the source, modelled here by their epoch millisecond values so that
`createDateFromISOString(t).getTime()` is the identity. -/
structure Task where
  taskId : String
  title : String
  status : Status
  priority : TaskPriority
  estimatedPoints : ℚ
  actualPoints : Option ℚ := none
  startTime : Option ℚ := none
  endTime : Option ℚ := none
deriving DecidableEq, Repr

/-- Milestone record (`progress/types.ts`, `interface Milestone`). -/
structure Milestone where
  milestoneId : String
  milestoneStatus : Status
  title : String
  dueDate : Option ℚ := none
  completedDate : Option ℚ := none
  tasks : List Task
  dependencyMilestone : List String := []
deriving DecidableEq, Repr

/-- Project record (`progress/types.ts`, `interface Project`). -/
structure Project where
  projectId : String
  projectStatus : Status
  title : String
  milestones : List Milestone
  createdAt : ℚ
  updatedAt : ℚ
deriving DecidableEq, Repr

/-- Aggregate statistics (`progress/types.ts`, `interface Statistics`). -/
structure Statistics where
  totalTasks : ℕ
  completedTasks : ℕ
  totalPoints : ℚ
  earnedPoints : ℚ
  averagePointsPerHour : ℚ
deriving DecidableEq, Repr

/-- Progress data aggregate (`progress/types.ts`, `interface ProgressData`),
as used by `ProgressManager`: `projects` carries the full project objects
with their milestones. -/
structure ProgressData where
  projects : List Project
  projectIds : List String
  statistics : Statistics
deriving DecidableEq, Repr

/-! ## Status cascade (`ProgressManager.updateMilestoneStatus` / `updateProjectStatus`)

The status recomputation branch structure of `manager.ts` lines 671-696 and
728-752, extracted over the milestone's task list (resp. the project's
milestone list). -/

/-- Milestone status recomputation from `ProgressManager.updateMilestoneStatus`:
zero tasks → NotStarted; all tasks Completed → Completed; some task
InProgress → InProgress; some task Blocked → Blocked; otherwise NotStarted. -/
def milestoneStatusFromTasks (tasks : List Task) : Status :=
  if tasks.length = 0 then Status.notStarted
  else if tasks.all (fun t => t.status = Status.completed) then Status.completed
  else if tasks.any (fun t => t.status = Status.inProgress) then Status.inProgress
  else if tasks.any (fun t => t.status = Status.blocked) then Status.blocked
  else Status.notStarted

/-- Project status recomputation from `ProgressManager.updateProjectStatus`,
the same branch structure over the project's milestones. -/
def projectStatusFromMilestones (milestones : List Milestone) : Status :=
  if milestones.length = 0 then Status.notStarted
  else if milestones.all (fun m => m.milestoneStatus = Status.completed) then Status.completed
  else if milestones.any (fun m => m.milestoneStatus = Status.inProgress) then Status.inProgress
  else if milestones.any (fun m => m.milestoneStatus = Status.blocked) then Status.blocked
  else Status.notStarted

/-- The spec's precedence rule over a list of child statuses, first match
wins: Completed when there is at least one child and all children are
Completed; else InProgress when any child is InProgress; else Blocked when
any child is Blocked; else NotStarted (including zero children). -/
def statusByPrecedence (children : List Status) : Status :=
  if children ≠ [] ∧ children.all (fun c => c = Status.completed) then Status.completed
  else if children.any (fun c => c = Status.inProgress) then Status.inProgress
  else if children.any (fun c => c = Status.blocked) then Status.blocked
  else Status.notStarted

/-! ## Task status update (`ProgressManager.updateTaskStatus`)

The task-mutation logic of `manager.ts` lines 597-611: the requested status
is written unconditionally; `startTime` is stamped on
NotStarted→InProgress; `endTime` and `actualPoints` are stamped whenever
the new status is Completed.  The surrounding id lookups, persistence and
event emission do not affect the transition behaviour. -/

/-- Task mutation performed by `ProgressManager.updateTaskStatus` once the
task has been found, with `now` the current timestamp. -/
def applyTaskStatusUpdate (task : Task) (status : Status) (now : ℚ) : Task :=
  let oldStatus := task.status
  let t1 : Task := { task with status := status }
  let t2 : Task :=
    if oldStatus = Status.notStarted ∧ status = Status.inProgress then
      { t1 with startTime := some now }
    else t1
  if status = Status.completed then
    { t2 with endTime := some now, actualPoints := some t2.estimatedPoints }
  else t2

/-! ## Statistics (`ProgressManager.updateStatistics`, `ProgressStorage.createEmptyProgressData`) -/

/-- Contribution of a completed task to `earnedPoints` in
`updateStatistics`: the source computes
`task.actualPoints || task.estimatedPoints`, so a present `actualPoints`
of `0` is falsy and falls back to `estimatedPoints`. -/
def earnedContribution (t : Task) : ℚ :=
  match t.actualPoints with
  | some a => if a = 0 then t.estimatedPoints else a
  | none => t.estimatedPoints

/-- All tasks of the progress data in the iteration order of the triple
loop `for project / for milestone / for task` of `updateStatistics`. -/
def allTasks (pd : ProgressData) : List Task :=
  pd.projects.flatMap (fun p => p.milestones.flatMap (fun m => m.tasks))

/-- First accumulation loop of `updateStatistics`: `totalTasks`,
`completedTasks`, `totalPoints` and `earnedPoints` accumulated across the
task list. -/
def statsLoop : List Task → ℕ → ℕ → ℚ → ℚ → ℕ × ℕ × ℚ × ℚ
  | [], totalTasks, completedTasks, totalPoints, earnedPoints =>
      (totalTasks, completedTasks, totalPoints, earnedPoints)
  | t :: rest, totalTasks, completedTasks, totalPoints, earnedPoints =>
      if t.status = Status.completed then
        statsLoop rest (totalTasks + 1) (completedTasks + 1)
          (totalPoints + t.estimatedPoints) (earnedPoints + earnedContribution t)
      else
        statsLoop rest (totalTasks + 1) completedTasks
          (totalPoints + t.estimatedPoints) earnedPoints

/-- Second loop of `updateStatistics`: total hours summed over completed
tasks that have both `startTime` and `endTime`, each contributing
`(endTime - startTime) / (1000 * 60 * 60)`. -/
def hoursLoop : List Task → ℚ → ℚ
  | [], total => total
  | t :: rest, total =>
      if t.status = Status.completed ∧ t.startTime.isSome ∧ t.endTime.isSome then
        hoursLoop rest
          (total + (t.endTime.getD 0 - t.startTime.getD 0) / (1000 * 60 * 60))
      else hoursLoop rest total

/-- `ProgressManager.updateStatistics`: recompute the counters and point
sums; then, only when `completedTasks > 0` and the summed qualifying hours
are strictly positive, replace `averagePointsPerHour` by
`earnedPoints / totalHours`. -/
def updateStatistics (pd : ProgressData) : ProgressData :=
  let acc := statsLoop (allTasks pd) 0 0 0 0
  let stats0 : Statistics :=
    { pd.statistics with
        totalTasks := acc.1
        completedTasks := acc.2.1
        totalPoints := acc.2.2.1
        earnedPoints := acc.2.2.2 }
  let stats1 : Statistics :=
    if 0 < acc.2.1 then
      let totalHours := hoursLoop (allTasks pd) 0
      if 0 < totalHours then
        { stats0 with averagePointsPerHour := acc.2.2.2 / totalHours }
      else stats0
    else stats0
  { pd with statistics := stats1 }

/-- `ProgressStorage.createEmptyProgressData`: empty data with all counters
zero and `averagePointsPerHour` seeded from the configured
`pointsPerHour`. -/
def createEmptyProgressData (pointsPerHour : ℚ) : ProgressData :=
  { projects := []
    projectIds := []
    statistics :=
      { totalTasks := 0
        completedTasks := 0
        totalPoints := 0
        earnedPoints := 0
        averagePointsPerHour := pointsPerHour } }

/-! Spec-side closed forms used to state the statistics claims. -/

/-- Completed tasks of the progress data. -/
def completedTasksOf (pd : ProgressData) : List Task :=
  (allTasks pd).filter (fun t => t.status = Status.completed)

/-- The spec's `earnedPoints` reading: `actualPoints ?? estimatedPoints`
summed over completed tasks, so a present `actualPoints` of `0`
contributes `0`. -/
def specEarnedPoints (pd : ProgressData) : ℚ :=
  ((completedTasksOf pd).map (fun t => t.actualPoints.getD t.estimatedPoints)).sum

/-- Qualifying hours: the sum of `(endTime - startTime)` in hours over
completed tasks having both timestamps. -/
def qualifyingHours (pd : ProgressData) : ℚ :=
  (((allTasks pd).filter
      (fun t => t.status = Status.completed ∧ t.startTime.isSome ∧ t.endTime.isSome)).map
    (fun t => (t.endTime.getD 0 - t.startTime.getD 0) / (1000 * 60 * 60))).sum

/-! ## Event model (`progress/types/events.ts`, `progress/events/definitions.ts`)

Only the dependency payload carries fields the claims inspect; the other
twenty-odd payload shapes are kept opaquely as `other` since no claim
depends on their contents. -/

/-- Event payload variants relevant to the claims. -/
inductive EventPayload where
  | taskDependencyAdded (taskId : String) (dependsOnTaskId : String)
  | other (tag : String)
deriving DecidableEq, Repr

/-- Progress event record (`interface Event` of `progress/types/events.ts`):
`{id, type, timestamp, version, payload}`. -/
structure ProgressEvent where
  id : String
  type : String
  timestamp : String
  version : ℕ
  payload : EventPayload
deriving DecidableEq, Repr

/-- `createTaskDependencyAddedEvent` of `progress/events/definitions.ts`:
builds the event unconditionally via `createEvent`, stamping `version = 1`
and the `task_dependency_added` type literal.  The ambient fresh UUID and
current timestamp are passed as arguments. -/
def createTaskDependencyAddedEvent (id timestamp taskId dependsOnTaskId : String) :
    ProgressEvent :=
  { id := id
    type := "task_dependency_added"
    timestamp := timestamp
    version := 1
    payload := EventPayload.taskDependencyAdded taskId dependsOnTaskId }

/-- Errors surfaced by the file store. -/
inductive StoreError where
  | persistenceError
deriving DecidableEq, Repr

/-- JavaScript `String.prototype.trim`, used by `loadEvents` to drop blank
lines. -/
def jsTrim (s : String) : String :=
  String.mk (((s.data.dropWhile Char.isWhitespace).reverse.dropWhile Char.isWhitespace).reverse)

/-- State of a `FileEventStore` (`progress/events/file_store.ts`) after
initialization: the in-memory `events` array and the durably appended
lines of `events.jsonl`.  File writes either succeed or raise; the
`appendOk` flag of the save operations selects which. -/
structure FileEventStore where
  events : List ProgressEvent
  file : List ProgressEvent
deriving DecidableEq, Repr

namespace FileEventStore

/-- `FileEventStore.saveEvent`: the event is pushed onto the in-memory
array first, then appended to the file; a failing append
(`appendOk = false`) raises without undoing the push. -/
def saveEvent (s : FileEventStore) (event : ProgressEvent) (appendOk : Bool) :
    FileEventStore × Option StoreError :=
  let s1 : FileEventStore := { s with events := s.events ++ [event] }
  if appendOk then ({ s1 with file := s1.file ++ [event] }, none)
  else (s1, some StoreError.persistenceError)

/-- `FileEventStore.saveEvents`: batch variant, same push-then-append
order. -/
def saveEvents (s : FileEventStore) (events : List ProgressEvent) (appendOk : Bool) :
    FileEventStore × Option StoreError :=
  let s1 : FileEventStore := { s with events := s.events ++ events }
  if appendOk then ({ s1 with file := s1.file ++ events }, none)
  else (s1, some StoreError.persistenceError)

/-- `FileEventStore.getAllEvents` (value level): the returned array's
contents. -/
def getAllEvents (s : FileEventStore) : List ProgressEvent := s.events

/-- `FileEventStore.getEventById` (value level). -/
def getEventById (s : FileEventStore) (eventId : String) : Option ProgressEvent :=
  s.events.find? (fun e => e.id = eventId)

/-- `FileEventStore.getEventsByType` (value level). -/
def getEventsByType (s : FileEventStore) (eventType : String) : List ProgressEvent :=
  s.events.filter (fun e => e.type = eventType)

/-- Per-line parsing pass of `loadEvents`: `lines.map(line => JSON.parse(line))`
with `JSON.parse` abstracted as `parse`; a thrown parse error aborts the
whole pass with that error. -/
def parseLines (parse : String → Except String ProgressEvent) :
    List String → Except String (List ProgressEvent)
  | [] => Except.ok []
  | line :: rest =>
      match parse line with
      | Except.error msg => Except.error msg
      | Except.ok e =>
          match parseLines parse rest with
          | Except.error msg => Except.error msg
          | Except.ok es => Except.ok (e :: es)

/-- `FileEventStore.loadEvents`: the file content is split into lines,
blank lines filtered out, and each remaining line parsed.  The whole pass
runs inside one `try`: the first parse failure aborts it and the `catch`
resets the in-memory list to the empty array. -/
def loadEvents (parse : String → Except String ProgressEvent) (lines : List String)
    (s : FileEventStore) : FileEventStore :=
  match parseLines parse (lines.filter (fun line => jsTrim line ≠ "")) with
  | Except.ok es => { s with events := es }
  | Except.error _ => { s with events := [] }

end FileEventStore

/-- `InMemoryEventStore` of `progress/events/memory_store.ts`. -/
structure InMemoryEventStore where
  events : List ProgressEvent
deriving DecidableEq, Repr

namespace InMemoryEventStore

/-- `InMemoryEventStore.saveEvent`: push onto the array. -/
def saveEvent (s : InMemoryEventStore) (event : ProgressEvent) : InMemoryEventStore :=
  { events := s.events ++ [event] }

/-- `InMemoryEventStore.saveEvents`: push all, in order. -/
def saveEvents (s : InMemoryEventStore) (events : List ProgressEvent) : InMemoryEventStore :=
  { events := s.events ++ events }

/-- `InMemoryEventStore.getAllEvents` (value level). -/
def getAllEvents (s : InMemoryEventStore) : List ProgressEvent := s.events

end InMemoryEventStore

/-! ## Reference-level model of the store reads (for the defensive-copy claim)

JavaScript arrays and event objects live on a heap and are passed by
reference.  `Mem` models that heap: `objs` maps event references to event
values, `arrs` maps array identities to their list of event references,
and `nextArr` is the allocator for fresh arrays.  `[...this.events]`
allocates a fresh array whose slots hold the same event references. -/

namespace RefModel

/-- JavaScript heap: event objects, arrays of event references, and the
next fresh array identity. -/
structure Mem where
  objs : ℕ → ProgressEvent
  arrs : ℕ → List ℕ
  nextArr : ℕ

/-- The store object: it holds the identity of its internal `events`
array. -/
structure Store where
  eventsArr : ℕ

/-- Dereferenced contents of array `a`. -/
def readArr (m : Mem) (a : ℕ) : List ProgressEvent := (m.arrs a).map m.objs

/-- The store's own view of its internal events array. -/
def storeView (m : Mem) (s : Store) : List ProgressEvent := readArr m s.eventsArr

/-- `getAllEvents`: `return [...this.events]` — allocate a fresh array
holding the same event references and return its identity. -/
def getAllEvents (m : Mem) (s : Store) : ℕ × Mem :=
  (m.nextArr,
   { m with
      arrs := Function.update m.arrs m.nextArr (m.arrs s.eventsArr)
      nextArr := m.nextArr + 1 })

/-- `getEventById`: `this.events.find(...)` hands back the internal object
reference itself, with no copy. -/
def getEventById (m : Mem) (s : Store) (eventId : String) : Option ℕ :=
  (m.arrs s.eventsArr).find? (fun r => (m.objs r).id = eventId)

/-- A caller mutating the event object behind reference `r` in place. -/
def setObj (m : Mem) (r : ℕ) (e : ProgressEvent) : Mem :=
  { m with objs := Function.update m.objs r e }

/-- A caller mutating slot `i` of array `a` in place. -/
def setArrElem (m : Mem) (a i r : ℕ) : Mem :=
  { m with arrs := Function.update m.arrs a ((m.arrs a).set i r) }

end RefModel

/-! ## EventEmitter (`core/events.ts`)

Handlers are opaque function identities, modelled as naturals.  The
`handlers` map is modelled as a function into `Option (List ℕ)`, `none`
for an absent key.  `emit` returns the invocation sequence: each invoked
handler paired with the data passed to it. -/

/-- The `EventEmitter` state: its `handlers` map. -/
structure EventEmitter where
  handlers : String → Option (List ℕ)

namespace EventEmitter

/-- The empty emitter: `new EventEmitter()`. -/
def empty : EventEmitter := { handlers := fun _ => none }

/-- Source method `EventEmitter.on` (renamed: `on` is reserved in Lean):
create the entry with `[]` when the key is absent, then push the
handler. -/
def onEvt (em : EventEmitter) (event : String) (handler : ℕ) : EventEmitter :=
  let m := if (em.handlers event).isSome then em.handlers
           else Function.update em.handlers event (some [])
  { handlers := Function.update m event (some ((m event).getD [] ++ [handler])) }

/-- `EventEmitter.off`: absent key → no change; otherwise `indexOf` finds
the first matching registration and `splice` removes exactly it (nothing
is removed when the handler is not found). -/
def off (em : EventEmitter) (event : String) (handler : ℕ) : EventEmitter :=
  match em.handlers event with
  | none => em
  | some hs => { handlers := Function.update em.handlers event (some (hs.erase handler)) }

/-- `EventEmitter.emit`: absent key → nothing; otherwise invoke the
registered handlers in array order, passing `data` to each.  The result is
the invocation sequence. -/
def emit {α : Type} (em : EventEmitter) (event : String) (data : α) : List (ℕ × α) :=
  match em.handlers event with
  | none => []
  | some hs => hs.map (fun h => (h, data))

end EventEmitter

/-! ## Concrete fixtures used by counterexamples and witnesses -/

/-- A NotStarted task, used to probe the transition table. -/
def taskC4 : Task :=
  { taskId := "T1", title := "task", status := Status.notStarted,
    priority := TaskPriority.must, estimatedPoints := 3 }

/-- A generic event fixture. -/
def evC2 : ProgressEvent :=
  { id := "e1", type := "task_created", timestamp := "2026-01-01T00:00:00.000Z",
    version := 1, payload := EventPayload.other "task_created" }

/-- The two dependency events `T1→T2`, `T2→T3` already in the log. -/
def depEventsC8 : List ProgressEvent :=
  [createTaskDependencyAddedEvent "id1" "t1" "T1" "T2",
   createTaskDependencyAddedEvent "id2" "t2" "T2" "T3"]

/-- A store whose log holds `depEventsC8`. -/
def storeC8 : FileEventStore := { events := depEventsC8, file := depEventsC8 }

/-- The edge `T3→T1` that closes the cycle. -/
def cycleEventC8 : ProgressEvent := createTaskDependencyAddedEvent "id3" "t3" "T3" "T1"

/-- A completed task with `actualPoints` present and equal to `0`:
distinguishes the source's `||` fallback from the spec's `??`. -/
def taskC5 : Task :=
  { taskId := "T1", title := "task", status := Status.completed,
    priority := TaskPriority.must, estimatedPoints := 5, actualPoints := some 0 }

/-- Progress data holding exactly `taskC5`. -/
def pdC5 : ProgressData :=
  { projects :=
      [{ projectId := "P1", projectStatus := Status.inProgress, title := "p",
         milestones :=
           [{ milestoneId := "M1", milestoneStatus := Status.inProgress, title := "m",
              tasks := [taskC5] }],
         createdAt := 0, updatedAt := 0 }]
    projectIds := ["P1"]
    statistics :=
      { totalTasks := 0, completedTasks := 0, totalPoints := 0, earnedPoints := 0,
        averagePointsPerHour := 2 } }

/-- A completed task with both timestamps, spanning two hours. -/
def taskC7 : Task :=
  { taskId := "T1", title := "task", status := Status.completed,
    priority := TaskPriority.must, estimatedPoints := 5, actualPoints := none,
    startTime := some 0, endTime := some 7200000 }

/-- Progress data holding exactly `taskC7`. -/
def pdC7 : ProgressData :=
  { projects :=
      [{ projectId := "P1", projectStatus := Status.inProgress, title := "p",
         milestones :=
           [{ milestoneId := "M1", milestoneStatus := Status.inProgress, title := "m",
              tasks := [taskC7] }],
         createdAt := 0, updatedAt := 0 }]
    projectIds := ["P1"]
    statistics :=
      { totalTasks := 0, completedTasks := 0, totalPoints := 0, earnedPoints := 0,
        averagePointsPerHour := 2 } }

/-! ## Helper lemmas -/

/-- Closed form of the first accumulation loop of `updateStatistics`. -/
theorem statsLoop_eq (ts : List Task) (a b : ℕ) (c d : ℚ) :
    statsLoop ts a b c d =
      (a + ts.length,
       b + (ts.filter (fun t => t.status = Status.completed)).length,
       c + (ts.map Task.estimatedPoints).sum,
       d + ((ts.filter (fun t => t.status = Status.completed)).map earnedContribution).sum) := by
  induction ts generalizing a b c d with
  | nil => simp [statsLoop]
  | cons t ts ih =>
      simp only [statsLoop]
      by_cases h : t.status = Status.completed
      · have hfc : (t :: ts).filter (fun t => t.status = Status.completed) =
            t :: ts.filter (fun t => t.status = Status.completed) := by
          simp [List.filter_cons, h]
        rw [if_pos h, ih, hfc]
        simp only [List.map_cons, List.length_cons, List.sum_cons, Prod.mk.injEq]
        refine ⟨by omega, by omega, by ring, by ring⟩
      · have hfc : (t :: ts).filter (fun t => t.status = Status.completed) =
            ts.filter (fun t => t.status = Status.completed) := by
          simp [List.filter_cons, h]
        rw [if_neg h, ih, hfc]
        simp only [List.map_cons, List.length_cons, List.sum_cons, Prod.mk.injEq]
        refine ⟨by omega, by trivial, by ring, by trivial⟩

/-- Closed form of the hours loop of `updateStatistics`. -/
theorem hoursLoop_eq (ts : List Task) (c : ℚ) :
    hoursLoop ts c =
      c + ((ts.filter
        (fun t => t.status = Status.completed ∧ t.startTime.isSome ∧ t.endTime.isSome)).map
          (fun t => (t.endTime.getD 0 - t.startTime.getD 0) / (1000 * 60 * 60))).sum := by
  induction ts generalizing c with
  | nil => simp [hoursLoop]
  | cons t ts ih =>
      simp only [hoursLoop]
      by_cases h : t.status = Status.completed ∧ t.startTime.isSome ∧ t.endTime.isSome
      · have hfc : (t :: ts).filter
            (fun t => t.status = Status.completed ∧ t.startTime.isSome ∧ t.endTime.isSome) =
            t :: ts.filter
              (fun t => t.status = Status.completed ∧ t.startTime.isSome ∧ t.endTime.isSome) := by
          simp only [List.filter_cons]
          rw [if_pos (by simpa using h)]
        rw [if_pos h, ih, hfc, List.map_cons, List.sum_cons]
        ring
      · have hfc : (t :: ts).filter
            (fun t => t.status = Status.completed ∧ t.startTime.isSome ∧ t.endTime.isSome) =
            ts.filter
              (fun t => t.status = Status.completed ∧ t.startTime.isSome ∧ t.endTime.isSome) := by
          simp only [List.filter_cons]
          rw [if_neg (by simpa using h)]
        rw [if_neg h, ih, hfc]

/-- The parsing pass fails whenever some line of the list fails to parse. -/
theorem parseLines_error_of_mem (f : String → Except String ProgressEvent) :
    ∀ (l : List String) (a : String), a ∈ l → (∀ e, f a ≠ Except.ok e) →
      ∃ msg, FileEventStore.parseLines f l = Except.error msg := by
  intro l
  induction l with
  | nil => intro a ha; cases ha
  | cons x xs ih =>
      intro a ha hf
      cases hx : f x with
      | error msg => exact ⟨msg, by simp [FileEventStore.parseLines, hx]⟩
      | ok e =>
          rcases List.mem_cons.mp ha with rfl | hmem
          · exact absurd hx (hf e)
          · rcases ih a hmem hf with ⟨msg, hmsg⟩
            exact ⟨msg, by simp [FileEventStore.parseLines, hx, hmsg]⟩

/-! ## Theorems -/

/-- C1: the recomputed milestone status over its task list, and the
recomputed project status over its milestone list, both equal the spec's
fixed-order first-match precedence rule (Completed when ≥1 child and all
Completed; else InProgress when any child is InProgress; else Blocked when
any child is Blocked; else NotStarted, including zero children). -/
theorem cascade_status_matches_precedence (tasks : List Task) (milestones : List Milestone) :
    milestoneStatusFromTasks tasks = statusByPrecedence (tasks.map Task.status) ∧
    projectStatusFromMilestones milestones =
      statusByPrecedence (milestones.map Milestone.milestoneStatus) := by
  constructor
  · cases tasks with
    | nil => rfl
    | cons t ts =>
        simp [milestoneStatusFromTasks, statusByPrecedence, List.all_map, List.any_map,
          Function.comp]
  · cases milestones with
    | nil => rfl
    | cons m ms =>
        simp [projectStatusFromMilestones, statusByPrecedence, List.all_map, List.any_map,
          Function.comp]

/-- C4 counterexample: the requested transition NotStarted→Completed is not
rejected — `updateTaskStatus` writes the requested status, so the task's
status changes to Completed (and `endTime`/`actualPoints` get stamped),
contradicting the claim that such a request is rejected with a
`ValidationError` and leaves the status unchanged. -/
theorem task_transition_counterexample :
    (applyTaskStatusUpdate taskC4 Status.completed 1000).status = Status.completed ∧
    taskC4.status ≠ Status.completed ∧
    (applyTaskStatusUpdate taskC4 Status.completed 1000).actualPoints = some 3 := by
  refine ⟨rfl, by decide, rfl⟩

/-- C4 amended: `updateTaskStatus` enforces no transition table — every
requested status is accepted and written; `startTime` is stamped exactly on
NotStarted→InProgress, and a transition to Completed stamps `endTime` and
sets `actualPoints := estimatedPoints`; no request is rejected. -/
theorem updateTaskStatus_writes_any_status (t : Task) (s : Status) (now : ℚ) :
    (applyTaskStatusUpdate t s now).status = s ∧
    (applyTaskStatusUpdate t s now).startTime =
      (if t.status = Status.notStarted ∧ s = Status.inProgress then some now else t.startTime) ∧
    (applyTaskStatusUpdate t s now).endTime =
      (if s = Status.completed then some now else t.endTime) ∧
    (applyTaskStatusUpdate t s now).actualPoints =
      (if s = Status.completed then some t.estimatedPoints else t.actualPoints) := by
  cases s <;> by_cases ht : t.status = Status.notStarted <;>
    simp [applyTaskStatusUpdate, ht]

/-- C2 counterexample: a failed file append during `saveEvent` raises a
`PersistenceError` but does not roll the event back — the in-memory list
now holds the event and `getAllEvents` differs from before the call,
contradicting the claim that the in-memory view is unchanged. -/
theorem saveEvent_no_rollback_counterexample :
    (FileEventStore.saveEvent ⟨[], []⟩ evC2 false).2 = some StoreError.persistenceError ∧
    (FileEventStore.saveEvent ⟨[], []⟩ evC2 false).1.events = [evC2] ∧
    FileEventStore.getAllEvents (FileEventStore.saveEvent ⟨[], []⟩ evC2 false).1 ≠
      FileEventStore.getAllEvents ⟨[], []⟩ := by
  refine ⟨rfl, rfl, ?_⟩
  simp [FileEventStore.saveEvent, FileEventStore.getAllEvents]

/-- C2 amended: when the durable append fails, `saveEvent` (and
`saveEvents`) raise a `PersistenceError` but the pushed event(s) remain in
the in-memory list — there is no rollback: subsequent `getAllEvents`
includes the unpersisted event(s) while the file is unchanged. -/
theorem saveEvent_failure_keeps_event_in_memory (s : FileEventStore) (e : ProgressEvent)
    (es : List ProgressEvent) :
    FileEventStore.saveEvent s e false =
      ({ s with events := s.events ++ [e] }, some StoreError.persistenceError) ∧
    FileEventStore.saveEvents s es false =
      ({ s with events := s.events ++ es }, some StoreError.persistenceError) ∧
    FileEventStore.getAllEvents (FileEventStore.saveEvent s e false).1 = s.events ++ [e] ∧
    (FileEventStore.saveEvent s e false).1.file = s.file := by
  refine ⟨rfl, rfl, ?_, rfl⟩
  simp [FileEventStore.saveEvent, FileEventStore.getAllEvents]

/-- C6: appending `e1, e2, e3` to a fresh store — one by one via
`saveEvent` or as a batch via `saveEvents` — and then reading with
`getAllEvents` returns exactly `[e1, e2, e3]`, for both the in-memory and
the file-backed store (with successful appends). -/
theorem append_read_round_trip (e1 e2 e3 : ProgressEvent) :
    InMemoryEventStore.getAllEvents
      (InMemoryEventStore.saveEvent
        (InMemoryEventStore.saveEvent (InMemoryEventStore.saveEvent ⟨[]⟩ e1) e2) e3) =
      [e1, e2, e3] ∧
    InMemoryEventStore.getAllEvents (InMemoryEventStore.saveEvents ⟨[]⟩ [e1, e2, e3]) =
      [e1, e2, e3] ∧
    FileEventStore.getAllEvents
      ((FileEventStore.saveEvent
        ((FileEventStore.saveEvent
          ((FileEventStore.saveEvent ⟨[], []⟩ e1 true).1) e2 true).1) e3 true).1) =
      [e1, e2, e3] ∧
    FileEventStore.getAllEvents ((FileEventStore.saveEvents ⟨[], []⟩ [e1, e2, e3] true).1) =
      [e1, e2, e3] := by
  refine ⟨?_, ?_, ?_, ?_⟩ <;>
    simp [InMemoryEventStore.saveEvent, InMemoryEventStore.saveEvents,
      InMemoryEventStore.getAllEvents, FileEventStore.saveEvent, FileEventStore.saveEvents,
      FileEventStore.getAllEvents]

/-- C8 counterexample: saving the dependency event `T3→T1` on a log already
holding `T1→T2` and `T2→T3` succeeds (no error is raised) and the log
grows by that event — contradicting the claim that the save fails with a
`CycleError` and leaves the log unchanged. -/
theorem cycle_edge_counterexample :
    (FileEventStore.saveEvent storeC8 cycleEventC8 true).2 = none ∧
    (FileEventStore.saveEvent storeC8 cycleEventC8 true).1.file = depEventsC8 ++ [cycleEventC8] ∧
    (FileEventStore.saveEvent storeC8 cycleEventC8 true).1.events = depEventsC8 ++ [cycleEventC8] ∧
    depEventsC8 ++ [cycleEventC8] ≠ depEventsC8 := by
  refine ⟨rfl, rfl, rfl, by simp⟩

/-- A parse function for the corrupt-line scenario: every line parses to an
event except the literal line `corrupt`. -/
def parseC3 (line : String) : Except String ProgressEvent :=
  if line = "corrupt" then Except.error "CorruptRecordError"
  else Except.ok
    { id := line, type := "task_created", timestamp := "t", version := 1,
      payload := EventPayload.other line }

/-- Ten valid lines followed by one malformed line. -/
def linesC3 : List String :=
  ["e1", "e2", "e3", "e4", "e5", "e6", "e7", "e8", "e9", "e10", "corrupt"]

/-- The events the ten valid lines of `linesC3` parse to. -/
def validC3 : List ProgressEvent :=
  ["e1", "e2", "e3", "e4", "e5", "e6", "e7", "e8", "e9", "e10"].map
    (fun line =>
      { id := line, type := "task_created", timestamp := "t", version := 1,
        payload := EventPayload.other line })

/-- C3 counterexample: a log with ten valid lines and one malformed line
loads as the empty event list — the valid events are *not* retained,
contradicting the claim that only the offending line is skipped; without
the malformed line the same ten lines load completely. -/
theorem corrupt_line_counterexample :
    (FileEventStore.loadEvents parseC3 linesC3 ⟨[], []⟩).events = [] ∧
    (FileEventStore.loadEvents parseC3 (linesC3.take 10) ⟨[], []⟩).events = validC3 ∧
    validC3 ≠ [] := by
  refine ⟨by decide, by decide, by decide⟩

/-- C3 amended: the per-line parse loop runs inside a single try/catch, so
one unparseable nonblank line makes `loadEvents` reset the in-memory list
to the empty array (reporting the error) — no valid event is retained;
only when every nonblank line parses does the store hold all parsed events. -/
theorem loadEvents_drops_all_on_corrupt_line (parse : String → Except String ProgressEvent)
    (lines : List String) (s : FileEventStore) :
    (∀ a ∈ lines, jsTrim a ≠ "" → (∀ e, parse a ≠ Except.ok e) →
      (FileEventStore.loadEvents parse lines s).events = []) ∧
    (∀ es, FileEventStore.parseLines parse (lines.filter (fun line => jsTrim line ≠ "")) =
        Except.ok es →
      (FileEventStore.loadEvents parse lines s).events = es) := by
  constructor
  · intro a ha hblank hbad
    have hmem : a ∈ lines.filter (fun line => jsTrim line ≠ "") :=
      List.mem_filter.mpr ⟨ha, by simpa using hblank⟩
    rcases parseLines_error_of_mem parse _ a hmem hbad with ⟨msg, hmsg⟩
    simp only [ne_eq, decide_not] at hmsg
    simp [FileEventStore.loadEvents, hmsg]
  · intro es hes
    simp only [ne_eq, decide_not] at hes
    simp [FileEventStore.loadEvents, hes]

/-- C3 witness: applying the amended theorem to the concrete malformed line
of `linesC3` empties the store. -/
theorem loadEvents_drops_witness :
    (FileEventStore.loadEvents parseC3 linesC3 ⟨[], []⟩).events = [] :=
  (loadEvents_drops_all_on_corrupt_line parseC3 linesC3 ⟨[], []⟩).1 "corrupt"
    (by decide) (by decide) (fun e h => by simp [parseC3] at h)

/-- C5 counterexample: the source computes `actualPoints || estimatedPoints`
(JS truthiness), not `actualPoints ?? estimatedPoints` — a completed task
with `estimatedPoints = 5` and a present `actualPoints` of `0` contributes
`5` to `earnedPoints`, while the claim's `??` reading says it contributes
`0`. -/
theorem earnedPoints_or_fallback_counterexample :
    (updateStatistics pdC5).statistics.earnedPoints = 5 ∧
    specEarnedPoints pdC5 = 0 ∧
    (updateStatistics pdC5).statistics.earnedPoints ≠ specEarnedPoints pdC5 := by
  have h1 : (updateStatistics pdC5).statistics.earnedPoints = 5 := by
    norm_num [updateStatistics, allTasks, pdC5, taskC5, statsLoop, hoursLoop,
      earnedContribution]
  have h2 : specEarnedPoints pdC5 = 0 := by
    norm_num [specEarnedPoints, completedTasksOf, allTasks, pdC5, taskC5]
  exact ⟨h1, h2, by rw [h1, h2]; norm_num⟩

/-- C5 amended: after recomputation `totalTasks` counts all tasks,
`completedTasks` counts Completed tasks, `totalPoints` sums
`estimatedPoints` over all tasks, and `earnedPoints` sums — over completed
tasks — `actualPoints` when it is present and nonzero and
`estimatedPoints` otherwise (the `||` fallback: a present `actualPoints`
of `0` contributes `estimatedPoints`, not `0`); in particular three
completed tasks with `estimatedPoints` 2, 3, 5 and `actualPoints` unset
still yield `totalPoints = 10`, `earnedPoints = 10`,
`completedTasks = 3`. -/
theorem updateStatistics_closed_forms (pd : ProgressData) :
    (updateStatistics pd).statistics.totalTasks = (allTasks pd).length ∧
    (updateStatistics pd).statistics.completedTasks = (completedTasksOf pd).length ∧
    (updateStatistics pd).statistics.totalPoints =
      ((allTasks pd).map Task.estimatedPoints).sum ∧
    (updateStatistics pd).statistics.earnedPoints =
      ((completedTasksOf pd).map (fun t =>
        if t.actualPoints.getD 0 = 0 then t.estimatedPoints
        else t.actualPoints.getD 0)).sum := by
  have hmap : (fun t : Task =>
      if t.actualPoints.getD 0 = 0 then t.estimatedPoints else t.actualPoints.getD 0) =
      earnedContribution := by
    funext t
    cases h : t.actualPoints <;> simp [earnedContribution, h]
  have hacc := statsLoop_eq (allTasks pd) 0 0 0 0
  refine ⟨?_, ?_, ?_, ?_⟩ <;>
    · simp only [updateStatistics, hacc, hmap, completedTasksOf]
      split_ifs <;> simp

/-- C7: `averagePointsPerHour` is replaced only when there is at least one
completed task and the summed qualifying duration is strictly positive (so
the division's divisor is nonzero); in every other case the field retains
its prior value, and `createEmptyProgressData` seeds it with the
configured `pointsPerHour`. -/
theorem averagePointsPerHour_guard (pd : ProgressData) (x : ℚ) :
    (¬(0 < (completedTasksOf pd).length ∧ 0 < qualifyingHours pd) →
      (updateStatistics pd).statistics.averagePointsPerHour =
        pd.statistics.averagePointsPerHour) ∧
    ((0 < (completedTasksOf pd).length ∧ 0 < qualifyingHours pd) →
      qualifyingHours pd ≠ 0 ∧
      (updateStatistics pd).statistics.averagePointsPerHour =
        (updateStatistics pd).statistics.earnedPoints / qualifyingHours pd) ∧
    (createEmptyProgressData x).statistics.averagePointsPerHour = x := by
  have hq : hoursLoop (allTasks pd) 0 = qualifyingHours pd := by
    rw [hoursLoop_eq, qualifyingHours]
    ring
  have hacc := statsLoop_eq (allTasks pd) 0 0 0 0
  refine ⟨?_, ?_, rfl⟩
  · intro hcon
    simp only [updateStatistics, hacc, hq, completedTasksOf, Nat.zero_add, zero_add]
    split_ifs with h1 h2
    · exact absurd ⟨by simpa [completedTasksOf] using h1, h2⟩ hcon
    · rfl
    · rfl
  · intro hcon
    refine ⟨ne_of_gt hcon.2, ?_⟩
    simp only [updateStatistics, hacc, hq, completedTasksOf, Nat.zero_add, zero_add]
    split_ifs with h1 h2
    · simp
    · exact absurd hcon.2 h2
    · exact absurd (by simpa [completedTasksOf] using hcon.1) h1

/-- C7 witness: with one completed two-hour task the guard's positive
branch applies, and with empty progress data the retention branch keeps
the configured seed. -/
theorem averagePointsPerHour_guard_witness :
    ((0 < (completedTasksOf pdC7).length ∧ 0 < qualifyingHours pdC7) ∧
      qualifyingHours pdC7 ≠ 0 ∧
      (updateStatistics pdC7).statistics.averagePointsPerHour =
        (updateStatistics pdC7).statistics.earnedPoints / qualifyingHours pdC7) ∧
    (¬(0 < (completedTasksOf (createEmptyProgressData 2)).length ∧
        0 < qualifyingHours (createEmptyProgressData 2)) ∧
      (updateStatistics (createEmptyProgressData 2)).statistics.averagePointsPerHour =
        (createEmptyProgressData 2).statistics.averagePointsPerHour) := by
  have hcond : 0 < (completedTasksOf pdC7).length ∧ 0 < qualifyingHours pdC7 := by
    constructor
    · norm_num [completedTasksOf, allTasks, pdC7, taskC7]
    · norm_num [qualifyingHours, allTasks, pdC7, taskC7]
  have hnot : ¬(0 < (completedTasksOf (createEmptyProgressData 2)).length ∧
      0 < qualifyingHours (createEmptyProgressData 2)) := by
    norm_num [completedTasksOf, allTasks, createEmptyProgressData]
  exact ⟨⟨hcond, (averagePointsPerHour_guard pdC7 0).2.1 hcond⟩,
    ⟨hnot, (averagePointsPerHour_guard (createEmptyProgressData 2) 0).1 hnot⟩⟩

/-- C8 amended: the event factory performs no cycle detection and the store
performs no validation — a task-dependency-added event is created
unconditionally and appended like any other event, the save succeeding
(when the underlying file append succeeds) with the log extended by the
event. -/
theorem dependency_event_saved_unconditionally (s : FileEventStore)
    (id ts taskId dep : String) :
    FileEventStore.saveEvent s (createTaskDependencyAddedEvent id ts taskId dep) true =
      ({ events := s.events ++ [createTaskDependencyAddedEvent id ts taskId dep],
         file := s.file ++ [createTaskDependencyAddedEvent id ts taskId dep] }, none) := by
  rfl

/-- An event fixture for the aliasing scenario. -/
def evC9a : ProgressEvent :=
  { id := "e1", type := "task_created", timestamp := "t", version := 1,
    payload := EventPayload.other "a" }

/-- The same heap cell after a caller overwrites a field. -/
def evC9b : ProgressEvent :=
  { id := "e1", type := "task_updated", timestamp := "t", version := 1,
    payload := EventPayload.other "b" }

/-- A heap with one event object (reference 0) and one array (identity 0)
holding that reference. -/
def memC9 : RefModel.Mem :=
  { objs := fun _ => evC9a, arrs := fun a => if a = 0 then [0] else [], nextArr := 1 }

/-- The store whose internal events array is array 0 of `memC9`. -/
def storeC9 : RefModel.Store := { eventsArr := 0 }

/-- C9 counterexample: `getAllEvents` copies the array but not the event
objects — the returned array holds the store's own object reference, so a
caller mutating that event object changes the result of the store's later
reads, contradicting the claim that returned event objects are defensive
copies. -/
theorem defensive_copy_counterexample :
    RefModel.storeView memC9 storeC9 = [evC9a] ∧
    0 ∈ (RefModel.getAllEvents memC9 storeC9).2.arrs (RefModel.getAllEvents memC9 storeC9).1 ∧
    RefModel.storeView (RefModel.setObj (RefModel.getAllEvents memC9 storeC9).2 0 evC9b)
      storeC9 = [evC9b] ∧
    evC9b ≠ evC9a := by
  refine ⟨?_, ?_, ?_, by decide⟩ <;>
    simp [RefModel.storeView, RefModel.readArr, RefModel.getAllEvents, RefModel.setObj,
      memC9, storeC9, Function.update]

/-- C9 amended: each read allocates a fresh array — mutating the returned
array does not affect the store — but the array's slots share the store's
event object references, so mutating a returned event object is visible in
every later read; `getEventById` even returns the internal object
reference itself. -/
theorem reads_share_event_references (m : RefModel.Mem) (s : RefModel.Store)
    (h : s.eventsArr < m.nextArr) (i r2 : ℕ) (e : ProgressEvent) :
    (RefModel.getAllEvents m s).1 ≠ s.eventsArr ∧
    (RefModel.getAllEvents m s).2.arrs (RefModel.getAllEvents m s).1 =
      m.arrs s.eventsArr ∧
    RefModel.storeView (RefModel.getAllEvents m s).2 s = RefModel.storeView m s ∧
    RefModel.storeView
      (RefModel.setArrElem (RefModel.getAllEvents m s).2 (RefModel.getAllEvents m s).1 i r2)
      s = RefModel.storeView m s ∧
    (∀ rr ∈ m.arrs s.eventsArr,
      e ∈ RefModel.storeView (RefModel.setObj (RefModel.getAllEvents m s).2 rr e) s) ∧
    (∀ eid rr, RefModel.getEventById m s eid = some rr → rr ∈ m.arrs s.eventsArr) := by
  have hne : m.nextArr ≠ s.eventsArr := Nat.ne_of_gt h
  refine ⟨hne, ?_, ?_, ?_, ?_, ?_⟩
  · simp [RefModel.getAllEvents, Function.update]
  · simp [RefModel.getAllEvents, RefModel.storeView, RefModel.readArr,
      Function.update, Ne.symm hne]
  · simp [RefModel.getAllEvents, RefModel.setArrElem, RefModel.storeView,
      RefModel.readArr, Function.update, Ne.symm hne]
  · intro rr hrr
    have : Function.update m.objs rr e rr = e := Function.update_same rr e m.objs
    refine List.mem_map.mpr ⟨rr, ?_, this⟩
    simpa [RefModel.getAllEvents, RefModel.storeView, RefModel.readArr,
      RefModel.setObj, Function.update, Ne.symm hne] using hrr
  · intro eid rr hfind
    exact List.mem_of_find?_eq_some hfind

/-- C9 witness: on the concrete one-event heap the returned array identity
differs from the store's internal one. -/
theorem reads_share_witness :
    storeC9.eventsArr < memC9.nextArr ∧
    (RefModel.getAllEvents memC9 storeC9).1 ≠ storeC9.eventsArr :=
  ⟨by decide,
   (reads_share_event_references memC9 storeC9 (by decide) 0 0 evC9a).1⟩

/-- A handler (id 7) registered twice for the same event name. -/
def emC10 : EventEmitter :=
  EventEmitter.onEvt (EventEmitter.onEvt EventEmitter.empty "task_completed" 7)
    "task_completed" 7

/-- C10 counterexample: registering the same handler twice makes `emit`
invoke it twice (not "each exactly once"), and after `off` removes only
the first registration a subsequent `emit` still invokes the removed
handler — contradicting the claim. -/
theorem emitter_duplicate_counterexample :
    EventEmitter.emit emC10 "task_completed" (0 : ℕ) = [(7, 0), (7, 0)] ∧
    EventEmitter.emit (EventEmitter.off emC10 "task_completed" 7) "task_completed" (0 : ℕ) =
      [(7, 0)] := by
  constructor <;>
    simp [emC10, EventEmitter.emit, EventEmitter.off, EventEmitter.onEvt,
      EventEmitter.empty, Function.update, List.erase]

/-- C10 amended: `emit` invokes exactly the registrations currently stored
for the event name, in registration order, passing the data to each (a
handler registered n times is invoked n times); an absent event name
invokes nothing; `on` appends a registration and `off` removes only the
first matching one, so a handler is no longer invoked after `off` provided
it had at most one registration; other event names are untouched. -/
theorem emitter_invocation_characterization (em : EventEmitter) (e e2 : String) (h : ℕ)
    (d : ℕ) :
    EventEmitter.emit em e d = ((em.handlers e).getD []).map (fun g => (g, d)) ∧
    ((EventEmitter.onEvt em e h).handlers e).getD [] = (em.handlers e).getD [] ++ [h] ∧
    ((EventEmitter.off em e h).handlers e).getD [] = ((em.handlers e).getD []).erase h ∧
    (e2 ≠ e → (EventEmitter.onEvt em e h).handlers e2 = em.handlers e2 ∧
      (EventEmitter.off em e h).handlers e2 = em.handlers e2) ∧
    (((em.handlers e).getD []).count h ≤ 1 →
      ∀ p ∈ EventEmitter.emit (EventEmitter.off em e h) e d, p.1 ≠ h) := by
  refine ⟨?_, ?_, ?_, ?_, ?_⟩
  · cases hm : em.handlers e <;> simp [EventEmitter.emit, hm]
  · cases hm : em.handlers e <;> simp [EventEmitter.onEvt, hm, Function.update]
  · cases hm : em.handlers e <;> simp [EventEmitter.off, hm, Function.update]
  · intro hne
    constructor
    · cases hm : em.handlers e <;>
        simp [EventEmitter.onEvt, hm, Function.update, hne]
    · cases hm : em.handlers e <;>
        simp [EventEmitter.off, hm, Function.update, hne]
  · intro hcount p hp
    cases hm : em.handlers e with
    | none => simp [EventEmitter.off, EventEmitter.emit, hm] at hp
    | some hs =>
        rw [hm] at hcount
        simp only [Option.getD_some] at hcount
        have hmem : p.1 ∈ hs.erase h := by
          simp only [EventEmitter.off, hm, EventEmitter.emit, Function.update_same] at hp
          rcases List.mem_map.mp hp with ⟨g, hg, hgp⟩
          simpa [← hgp] using hg
        intro hph
        rw [hph] at hmem
        have hzero : (hs.erase h).count h = 0 := by
          have := List.count_erase_self h hs
          omega
        exact (List.count_eq_zero.mp hzero) hmem

/-- C10 witness: with a single registration, `off` silences the handler,
and other event names are untouched by `on`. -/
theorem emitter_characterization_witness :
    ((((EventEmitter.onEvt EventEmitter.empty "task_started" 7).handlers
        "task_started").getD []).count 7 ≤ 1 ∧
      ∀ p ∈ EventEmitter.emit
        (EventEmitter.off (EventEmitter.onEvt EventEmitter.empty "task_started" 7)
          "task_started" 7) "task_started" (0 : ℕ), p.1 ≠ 7) ∧
    (("task_updated" : String) ≠ "task_started" ∧
      (EventEmitter.onEvt (EventEmitter.onEvt EventEmitter.empty "task_started" 7)
        "task_started" 9).handlers "task_updated" =
        (EventEmitter.onEvt EventEmitter.empty "task_started" 7).handlers "task_updated") := by
  constructor
  · have hc : (((EventEmitter.onEvt EventEmitter.empty "task_started" 7).handlers
        "task_started").getD []).count 7 ≤ 1 := by
      simp [EventEmitter.onEvt, EventEmitter.empty, Function.update]
    exact ⟨hc,
      (emitter_invocation_characterization
        (EventEmitter.onEvt EventEmitter.empty "task_started" 7)
        "task_started" "task_updated" 7 0).2.2.2.2 hc⟩
  · have hne : ("task_updated" : String) ≠ "task_started" := by decide
    exact ⟨hne,
      ((emitter_invocation_characterization
        (EventEmitter.onEvt EventEmitter.empty "task_started" 7)
        "task_started" "task_updated" 9 0).2.2.2.1 hne).1⟩

end Panopticon
